import Mathlib

/-!
Verification of the nested-filter evaluation core of the qdrant payload
index, shallowly embedded from
`lib/segment/src/payload_storage/nested_query_checker.rs` and
`lib/segment/src/index/query_optimization/nested_filter.rs`.

Conventions of the embedding:
* JSON numbers are embedded as rationals; machine floats only flow through
  order comparisons here, which rationals model faithfully.
* Rust `Vec` is `List`, `Option` is `Option`, `usize`/`u32` are `Nat`.
* The `HashMap<_, usize>` tally used by the merge engine maps each distinct
  element of the flat match list to its number of occurrences; it is
  represented by `List.countP` over the flat list, and iteration over the
  map's entries by `List.any` over the flat list (the map's key set is
  exactly the set of elements of the flat list).
* `unreachable!()` panics are modelled as `none` in an `Option` result.
* Closure-captured handles (payload provider, indexes) become explicit
  function arguments; `payload_provider.with_payload(id, f)` is `f (payloads id)`.
* Helpers that live outside the two embedded files (the JSON path resolver,
  the per-value predicate checks of `condition_checker.rs` / `types.rs`)
  are modelled from the spec, as marked on each definition.
-/

namespace Qdrant

/-- JSON-like payload value (serde_json::Value); object fields are an
association list with the insertion order preserved. -/
inductive Value where
  | null : Value
  | bool (b : Bool) : Value
  | num (q : ℚ) : Value
  | str (s : String) : Value
  | arr (vs : List Value) : Value
  | obj (fields : List (String × Value)) : Value

/-- Test for the JSON null value (serde_json `Value::is_null`). -/
def Value.is_null : Value → Bool
  | .null => true
  | _ => false

/-- Modelled from the spec: a path segment is an object key or a
"descend into array" marker (spec section 3, "Path"); the concrete
`JsonPathPayload` string representation is not under `src/`. -/
inductive PathSeg where
  | objKey (k : String)
  | allElems
deriving DecidableEq

/-- Modelled from the spec: the `JsonPathPayload` wrapper of
`common/utils.rs` (not under `src/`), holding the path. -/
structure JsonPathPayload where
  path : List PathSeg

/-- Modelled from the spec: `JsonPathPayload::add_segment` appends one
object-key segment to the path. -/
def JsonPathPayload.add_segment (p : JsonPathPayload) (key : String) : JsonPathPayload :=
  ⟨p.path ++ [PathSeg.objKey key]⟩

/-- Lookup of an object field by key (keys are unique). -/
def lookupKey (fields : List (String × Value)) (k : String) : Option Value :=
  fields.lookup k

/-- Modelled from the spec: resolution shape of a path (spec section 4.1):
`Single` for paths that cross no array boundary, `Multiple` with one value
per array element otherwise. The `MultiValue` type of `common/utils.rs` is
not under `src/`. -/
inductive MultiValue where
  | Single (v : Option Value)
  | Multiple (vs : List Value)

/-- Modelled from the spec: the flat view of a resolution used by the
checkers — the single synthetic element 0 if `Single`, the per-element
values if `Multiple` (spec section 4.3). -/
def MultiValue.values : MultiValue → List Value
  | .Single none => []
  | .Single (some v) => [v]
  | .Multiple vs => vs

/-- Modelled from the spec: resolution of a pure object-key path inside one
array element; a missing key (or any non-key segment) yields `none`, which
the array case below turns into the absent placeholder. -/
def resolveInElement : Value → List PathSeg → Option Value
  | v, [] => some v
  | .obj fields, .objKey k :: rest =>
    match lookupKey fields k with
    | some v' => resolveInElement v' rest
    | none => none
  | _, _ :: _ => none

/-- Modelled from the spec: the payload path resolver (spec section 4.1).
A path with no array-descent segment yields `Single`; descending into an
array yields `Multiple` with the resolved sub-value, or the absent
placeholder `null`, per array element in array order; missing intermediate
keys yield `Single none` or an empty `Multiple`, never an error. -/
def getValue : Value → List PathSeg → MultiValue
  | v, [] => .Single (some v)
  | v, .objKey k :: rest =>
    match v with
    | .obj fields =>
      match lookupKey fields k with
      | some v' => getValue v' rest
      | none => .Single none
    | _ => .Single none
  | v, .allElems :: rest =>
    match v with
    | .arr es => .Multiple (es.map (fun e => (resolveInElement e rest).getD .null))
    | _ => .Multiple []

/-- Payload document: the top-level mapping of a point's stored document. -/
structure Payload where
  fields : List (String × Value)

/-- Modelled from the spec: `Payload::get_value` resolves a path against the
document (spec section 4.1); the implementation lives in `common/utils.rs`,
not under `src/`. -/
def Payload.get_value (p : Payload) (path : List PathSeg) : MultiValue :=
  getValue (.obj p.fields) path

/-- Rust `Option::map_or(false, f)`. -/
def mapOrFalse {α : Type _} (o : Option α) (f : α → Bool) : Bool :=
  match o with
  | none => false
  | some x => f x

/-- Rust `Option::map_or(true, f)`. -/
def mapOrTrue {α : Type _} (o : Option α) (f : α → Bool) : Bool :=
  match o with
  | none => true
  | some x => f x

/-- Scalar alternatives of a direct match condition (`types.rs`, not under
`src/`; the `Keyword` and `Integer` variants are the ones consumed by the
embedded files). -/
inductive ValueVariants where
  | Keyword (s : String)
  | Integer (i : Int)

/-- Direct value match predicate. -/
structure MatchValue where
  value : ValueVariants

/-- Full-text match predicate. -/
structure MatchText where
  text : String

/-- Alternatives of a match-any predicate. -/
inductive AnyVariants where
  | Keywords (l : List String)
  | Integers (l : List Int)

/-- Match-any (membership) predicate. -/
structure MatchAny where
  any : AnyVariants

/-- Match predicate of a field condition (`types.rs`, not under `src/`). -/
inductive Match where
  | Value (m : MatchValue)
  | Text (t : MatchText)
  | Any (a : MatchAny)

/-- Modelled from the spec: per-value check of a match predicate
(`ValueChecker` impl of `condition_checker.rs`, not under `src/`):
match-value is equality with the target scalar, match-text checks the
tokenized query against the tokenized stored string, match-any is
membership (spec section 4.2). -/
def Match.check (cond_match : Match) (p : Qdrant.Value) : Bool :=
  match cond_match, p with
  | .Value ⟨.Keyword k⟩, .str s => s == k
  | .Value ⟨.Integer i⟩, .num q => decide (q = (i : ℚ))
  | .Text ⟨t⟩, .str s => (t.splitOn (" ")).all (fun tok => (s.splitOn (" ")).contains tok)
  | .Any ⟨.Keywords l⟩, .str s => l.contains s
  | .Any ⟨.Integers l⟩, .num q => l.any (fun i => decide (q = (i : ℚ)))
  | _, _ => false

/-- Numeric range predicate; any subset of the bounds may be set. -/
structure Range where
  lt : Option ℚ
  gt : Option ℚ
  gte : Option ℚ
  lte : Option ℚ

/-- Modelled from the spec: a number satisfies the range iff it passes every
bound that is set (spec section 4.2; `Range::check_range` of `types.rs` is
not under `src/`). -/
def Range.check_range (r : Range) (v : ℚ) : Bool :=
  (((mapOrTrue r.lt (fun b => decide (v < b)))
    && mapOrTrue r.gt (fun b => decide (b < v)))
    && mapOrTrue r.gte (fun b => decide (b ≤ v)))
    && mapOrTrue r.lte (fun b => decide (v ≤ b))

/-- Modelled from the spec: per-value check of a range predicate — only a
numeric value can satisfy it. -/
def Range.check (r : Range) (p : Value) : Bool :=
  match p with
  | .num q => r.check_range q
  | _ => false

/-- Geographic coordinate pair. -/
structure GeoPoint where
  lon : ℚ
  lat : ℚ

/-- Geo-radius predicate. -/
structure GeoRadius where
  center : GeoPoint
  radius : ℚ

/-- Modelled from the spec: containment of a coordinate in the radius, with
the planar metric the spec admits (section 4.2: "great-circle or planar
distance, per the radius's defined metric"); `types.rs` is not under `src/`. -/
def GeoRadius.check_point (g : GeoRadius) (lon lat : ℚ) : Bool :=
  decide ((lon - g.center.lon) ^ 2 + (lat - g.center.lat) ^ 2 ≤ g.radius ^ 2)

/-- Modelled from the spec: a payload value is a geo point when it is an
object carrying numeric `lon` and `lat` fields. -/
def Value.asGeoPoint : Value → Option GeoPoint
  | .obj fields =>
    match lookupKey fields ("lon"), lookupKey fields ("lat") with
    | some (.num lon), some (.num lat) => some ⟨lon, lat⟩
    | _, _ => none
  | _ => none

/-- Modelled from the spec: per-value check of a geo-radius predicate. -/
def GeoRadius.check (g : GeoRadius) (p : Value) : Bool :=
  mapOrFalse p.asGeoPoint (fun gp => g.check_point gp.lon gp.lat)

/-- Geo bounding box predicate, top-left/bottom-right corners. -/
structure GeoBoundingBox where
  top_left : GeoPoint
  bottom_right : GeoPoint

/-- Modelled from the spec: containment of a coordinate in the bounding box
(corners lon/lat ordered, spec section 4.2). -/
def GeoBoundingBox.check_point (g : GeoBoundingBox) (lon lat : ℚ) : Bool :=
  decide (g.top_left.lon ≤ lon ∧ lon ≤ g.bottom_right.lon
    ∧ g.bottom_right.lat ≤ lat ∧ lat ≤ g.top_left.lat)

/-- Modelled from the spec: per-value check of a geo-bounding-box predicate. -/
def GeoBoundingBox.check (g : GeoBoundingBox) (p : Value) : Bool :=
  mapOrFalse p.asGeoPoint (fun gp => g.check_point gp.lon gp.lat)

/-- Values-count predicate; any subset of the bounds may be set. -/
structure ValuesCount where
  lt : Option Nat
  gt : Option Nat
  gte : Option Nat
  lte : Option Nat

/-- Modelled from the spec: bound check of a values-count predicate. -/
def ValuesCount.check_count (c : ValuesCount) (n : Nat) : Bool :=
  (((mapOrTrue c.lt (fun b => decide (n < b)))
    && mapOrTrue c.gt (fun b => decide (b < n)))
    && mapOrTrue c.gte (fun b => decide (b ≤ n)))
    && mapOrTrue c.lte (fun b => decide (n ≤ b))

/-- Modelled from the spec: per-value check of a values-count predicate —
an array counts its elements, null counts zero values, any other value
counts one. -/
def ValuesCount.check (c : ValuesCount) (p : Value) : Bool :=
  match p with
  | .arr vs => c.check_count vs.length
  | .null => c.check_count 0
  | _ => c.check_count 1

/-- Field condition: one field path plus the optional sub-predicates
(`types.rs`; the field `match` is spelled `rmatch` because `match` is a
keyword, mirroring the source's `r#match`). -/
structure FieldCondition where
  key : String
  rmatch : Option Match
  range : Option Range
  geo_radius : Option GeoRadius
  geo_bounding_box : Option GeoBoundingBox
  values_count : Option ValuesCount

/-- Disjunction of the configured sub-predicate checks of a field condition
on one resolved value — the `res = res || …` chain of
`nested_check_field_condition` (nested_query_checker.rs lines 134-161). -/
def subPredicatesCheck (field_condition : FieldCondition) (p : Value) : Bool :=
  ((((false
    || mapOrFalse field_condition.rmatch (fun c => c.check p))
    || mapOrFalse field_condition.range (fun c => c.check p))
    || mapOrFalse field_condition.geo_radius (fun c => c.check p))
    || mapOrFalse field_condition.geo_bounding_box (fun c => c.check p))
    || mapOrFalse field_condition.values_count (fun c => c.check p)

/-- Index-threading enumeration: the positions (starting at `n`) of the
elements satisfying `f` — the `for (index, p) in …enumerate()` push loops of
nested_query_checker.rs and itertools' `positions` in nested_filter.rs. -/
def positionsFrom {α : Type _} (f : α → Bool) : Nat → List α → List Nat
  | _, [] => []
  | n, x :: rest =>
    if f x then n :: positionsFrom f (n + 1) rest else positionsFrom f (n + 1) rest

/-- Positions (0-based) of the elements satisfying `f`. -/
def positions {α : Type _} (f : α → Bool) (l : List α) : List Nat :=
  positionsFrom f 0 l

/-- Payload field reference (`types.rs`). -/
structure PayloadField where
  key : String

/-- IsEmpty condition (`types.rs`). -/
structure IsEmptyCondition where
  is_empty : PayloadField

/-- IsNull condition (`types.rs`). -/
structure IsNullCondition where
  is_null : PayloadField

/-- Match arm of the IsEmpty loop (nested_query_checker.rs lines 78-83):
null, or an array with `is_empty()` contents. -/
def isNullOrEmptyArray (p : Value) : Bool :=
  match p with
  | .null => true
  | .arr [] => true
  | _ => false

/-- Match arm of the IsNull `Multiple` loop (nested_query_checker.rs lines
108-116): null, or an array containing at least one null. -/
def isNullOrContainsNull (p : Value) : Bool :=
  match p with
  | .null => true
  | .arr vec => vec.any (fun val => val.is_null)
  | _ => false

/-- Element indices matching an IsEmpty condition in the payload
(nested_query_checker.rs `check_nested_is_empty_condition`, lines 67-85):
a position matches iff the value there is null or an empty array. -/
def check_nested_is_empty_condition (nested_path : JsonPathPayload)
    (is_empty : IsEmptyCondition) (payload : Payload) : List Nat :=
  let full_path := nested_path.add_segment is_empty.is_empty.key
  let field_values := payload.get_value full_path.path
  positions isNullOrEmptyArray field_values.values

/-- Element indices matching an IsNull condition in the payload
(nested_query_checker.rs `check_nested_is_null_condition`, lines 88-122). -/
def check_nested_is_null_condition (nested_path : JsonPathPayload)
    (is_null : IsNullCondition) (payload : Payload) : List Nat :=
  let full_path := nested_path.add_segment is_null.is_null.key
  match payload.get_value full_path.path with
  | .Single none => [0]
  | .Single (some v) => if v.is_null then [0] else []
  | .Multiple multiple_values =>
    positions isNullOrContainsNull multiple_values

/-- Indexes of the elements matching a field condition in the payload values
(nested_query_checker.rs `nested_check_field_condition`, lines 125-168):
a position is pushed iff the OR of the configured sub-predicate checks
holds on the value there. -/
def nested_check_field_condition (field_condition : FieldCondition)
    (payload : Payload) (nested_path : JsonPathPayload) : List Nat :=
  let full_path := nested_path.add_segment field_condition.key
  let field_values := payload.get_value full_path.path
  positions (subPredicatesCheck field_condition) field_values.values

mutual

/-- Condition of a filter (`types.rs`, not under `src/`; only the variants
and fields consumed by the embedded files are carried). -/
inductive Condition where
  | Field (field_condition : FieldCondition)
  | IsEmpty (is_empty : IsEmptyCondition)
  | IsNull (is_null : IsNullCondition)
  | HasId (has_id : List Nat)
  | Nested (nested_path : JsonPathPayload) (nested_filter : Filter)
  | Filter (filter : Filter)

/-- Boolean filter over conditions (`types.rs`); in nested scope only
`must` is consumed. -/
inductive Filter where
  | mk (should : Option (List Condition)) (must : Option (List Condition))
       (must_not : Option (List Condition))

end

/-- The `should` group of a filter. -/
def Filter.should : Filter → Option (List Condition)
  | .mk s _ _ => s

/-- The `must` group of a filter. -/
def Filter.must : Filter → Option (List Condition)
  | .mk _ m _ => m

/-- The `must_not` group of a filter. -/
def Filter.must_not : Filter → Option (List Condition)
  | .mk _ _ mn => mn

/-- Structural violations inside a nested scope: the condition kinds whose
branches are `unreachable!()` in both embedded files. -/
def Condition.isStructuralViolation : Condition → Bool
  | .HasId _ => true
  | .Nested _ _ => true
  | .Filter _ => true
  | _ => false

/-- Positional AND over the per-condition matching positions
(nested_query_checker.rs `check_all_nested_conditions`, lines 12-29):
an absent `must` list is true; otherwise every condition's matching
positions are collected, tallied per position, and the point matches iff
some position's tally equals the number of conditions. -/
def check_all_nested_conditions (checker : Condition → List Nat)
    (must : Option (List Condition)) : Bool :=
  match must with
  | none => true
  | some conditions =>
    let condition_count := conditions.length
    let matching_paths := (conditions.map checker).flatten
    matching_paths.any (fun m =>
      matching_paths.countP (fun x => decide (x = m)) == condition_count)

/-- Per-condition dispatch of the fallback nested checker
(nested_query_checker.rs `check_nested_filter`, lines 39-52); the
`unreachable!()` branches for structurally invalid conditions are modelled
as `none`. -/
def nested_checker_of (payload : Payload) (nested_path : JsonPathPayload) :
    Condition → Option (List Nat)
  | .Field field_condition =>
    some (nested_check_field_condition field_condition payload nested_path)
  | .IsEmpty is_empty =>
    some (check_nested_is_empty_condition nested_path is_empty payload)
  | .IsNull is_null =>
    some (check_nested_is_null_condition nested_path is_null payload)
  | .HasId _ => none
  | .Nested _ _ => none
  | .Filter _ => none

/-- Sequencing of the per-condition checker over a condition list; a `none`
(modelled panic) anywhere aborts the whole evaluation. -/
def collectResults (checker : Condition → Option (List Nat)) :
    List Condition → Option (List (List Nat))
  | [] => some []
  | c :: rest =>
    match checker c, collectResults checker rest with
    | some r, some rs => some (r :: rs)
    | _, _ => none

/-- Abort-aware variant of `check_all_nested_conditions`, used where the
per-condition checker can hit an `unreachable!()` branch. -/
def check_all_nested_conditions_safe (checker : Condition → Option (List Nat))
    (must : Option (List Condition)) : Option Bool :=
  match must with
  | none => some true
  | some conditions =>
    (collectResults checker conditions).map (fun results =>
      let matching_paths := results.flatten
      matching_paths.any (fun m =>
        matching_paths.countP (fun x => decide (x = m)) == conditions.length))

/-- Only `must` conditions are consumed in nested scope
(nested_query_checker.rs `nested_filter_checker`, lines 58-64). -/
def nested_filter_checker (checker : Condition → Option (List Nat))
    (nested_filter : Filter) : Option Bool :=
  check_all_nested_conditions_safe checker nested_filter.must

/-- Fallback evaluation of one nested filter against one point's payload
(nested_query_checker.rs `check_nested_filter`, lines 31-55); `none` models
the `unreachable!()` panic on structurally invalid conditions. -/
def check_nested_filter (nested_path : JsonPathPayload) (nested_filter : Filter)
    (payload : Payload) : Option Bool :=
  nested_filter_checker (nested_checker_of payload nested_path) nested_filter

/-- Nested path identifying one array element in the optimizer module
(nested_filter.rs line 25: `pub type NestedPath = String`; element
positions are stringified into it by `from_indexes`). -/
abbrev NestedPath := String

/-- Result of one nested condition checker for one point
(nested_filter.rs lines 27-30). -/
inductive NestedConditionCheckerResult where
  | NoMatch
  | Matches (paths : List NestedPath)

/-- Normalization of a path list into a checker result
(nested_filter.rs `from_matches`, lines 33-39). -/
def NestedConditionCheckerResult.from_matches (found : List String) :
    NestedConditionCheckerResult :=
  if found.isEmpty then .NoMatch else .Matches found

/-- Normalization of an element-position sequence into a checker result
(nested_filter.rs `from_indexes`, lines 41-48). -/
def NestedConditionCheckerResult.from_indexes (indexes : List Nat) :
    NestedConditionCheckerResult :=
  let values := indexes.map toString
  if values.isEmpty then .NoMatch else .Matches values

/-- The list of matched nested paths carried by a checker result
(`NoMatch` carries none). -/
def NestedConditionCheckerResult.matchedPaths :
    NestedConditionCheckerResult → List NestedPath
  | .NoMatch => []
  | .Matches paths => paths

/-- One nested condition checker: point id to checker result
(nested_filter.rs line 22; `PointOffsetType` is `Nat`). -/
abbrev NestedConditionCheckerFn := Nat → NestedConditionCheckerResult

/-- Merge of several nested condition checkers into one boolean condition
checker (nested_filter.rs `merge_nested_condition_checkers`, lines 54-79):
every checker's matched paths are tallied in a map from path to match
count, and the point matches iff some path's count equals the number of
checkers. -/
def merge_nested_condition_checkers
    (nested_checkers : List NestedConditionCheckerFn) : Nat → Bool :=
  fun point_id =>
    let condition_count := nested_checkers.length
    let matching := (nested_checkers.map (fun c => (c point_id).matchedPaths)).flatten
    matching.any (fun m =>
      matching.countP (fun x => decide (x = m)) == condition_count)

/-- Modelled from the spec: the full-text index interface (spec section 6):
a compiled query representation, a per-point indexed document, and a match
check; the index implementation is not under `src/`. Queries and documents
are token lists. -/
structure FullTextIndexT where
  get_doc : Nat → Option (List String)
  parse_query : String → List String
  check_match : List String → List String → Bool

/-- Secondary field index (`index/field_index`, not under `src/`): the
closed set of index kinds dispatched over by nested_filter.rs, each
exposing `get_values` per point (spec sections 3 and 6). Integer values
feed `IntIndex`/`IntMapIndex`, floats `FloatIndex`. -/
inductive FieldIndex where
  | IntIndex (get_values : Nat → Option (List Int))
  | IntMapIndex (get_values : Nat → Option (List Int))
  | KeywordIndex (get_values : Nat → Option (List String))
  | FloatIndex (get_values : Nat → Option (List ℚ))
  | GeoIndex (get_values : Nat → Option (List GeoPoint))
  | FullTextIndex (index : FullTextIndexT)

/-- Index-accelerated checkers for a match predicate
(nested_filter.rs `get_nested_match_checkers`, lines 237-300): keyword and
integer match-value/match-any against the corresponding index kinds; the
full-text branch evaluates the compiled query but discards the result and
reports `NoMatch` (source comment: "TODO what to do with the result, there
is no nesting here"). -/
def get_nested_match_checkers (index : FieldIndex) (cond_match : Match) :
    Option NestedConditionCheckerFn :=
  match cond_match with
  | .Value ⟨.Keyword keyword⟩ =>
    match index with
    | .KeywordIndex get_values =>
      some (fun point_id =>
        match get_values point_id with
        | none => .NoMatch
        | some values => .from_indexes (positions (fun k => k == keyword) values))
    | _ => none
  | .Value ⟨.Integer value⟩ =>
    match index with
    | .IntMapIndex get_values =>
      some (fun point_id =>
        match get_values point_id with
        | none => .NoMatch
        | some values => .from_indexes (positions (fun i => i == value) values))
    | _ => none
  | .Text ⟨text⟩ =>
    match index with
    | .FullTextIndex full_text_index =>
      let parsed_query := full_text_index.parse_query text
      some (fun point_id =>
        match full_text_index.get_doc point_id with
        | none => .NoMatch
        | some doc =>
          let _res := full_text_index.check_match parsed_query doc
          .NoMatch)
    | _ => none
  | .Any ⟨.Keywords list⟩ =>
    match index with
    | .KeywordIndex get_values =>
      some (fun point_id =>
        match get_values point_id with
        | none => .NoMatch
        | some values => .from_indexes (positions (fun k => list.contains k) values))
    | _ => none
  | .Any ⟨.Integers list⟩ =>
    match index with
    | .IntMapIndex get_values =>
      some (fun point_id =>
        match get_values point_id with
        | none => .NoMatch
        | some values => .from_indexes (positions (fun i => list.contains i) values))
    | _ => none

/-- Index-accelerated checkers for a range predicate
(nested_filter.rs `get_nested_range_checkers`, lines 207-235); integer
values are cast to the float payload type before the range check. -/
def get_nested_range_checkers (index : FieldIndex) (range : Range) :
    Option NestedConditionCheckerFn :=
  match index with
  | .IntIndex get_values =>
    some (fun point_id =>
      match get_values point_id with
      | none => .NoMatch
      | some values =>
        .from_indexes (positions (fun i => range.check_range (i : ℚ)) values))
  | .FloatIndex get_values =>
    some (fun point_id =>
      match get_values point_id with
      | none => .NoMatch
      | some values => .from_indexes (positions (fun i => range.check_range i) values))
  | _ => none

/-- Index-accelerated checkers for a geo-radius predicate
(nested_filter.rs `get_nested_geo_radius_checkers`, lines 169-186). -/
def get_nested_geo_radius_checkers (index : FieldIndex) (geo_radius : GeoRadius) :
    Option NestedConditionCheckerFn :=
  match index with
  | .GeoIndex get_values =>
    some (fun point_id =>
      match get_values point_id with
      | none => .NoMatch
      | some values =>
        .from_indexes (positions
          (fun geo_point => geo_radius.check_point geo_point.lon geo_point.lat) values))
  | _ => none

/-- Index-accelerated checkers for a geo-bounding-box predicate
(nested_filter.rs `get_nested_geo_bounding_box_checkers`, lines 188-205). -/
def get_nested_geo_bounding_box_checkers (index : FieldIndex)
    (geo_bounding_box : GeoBoundingBox) : Option NestedConditionCheckerFn :=
  match index with
  | .GeoIndex get_values =>
    some (fun point_id =>
      match get_values point_id with
      | none => .NoMatch
      | some values =>
        .from_indexes (positions
          (fun geo_point => geo_bounding_box.check_point geo_point.lon geo_point.lat) values))
  | _ => none

/-- Selection of an index-accelerated checker for a field condition
(nested_filter.rs `nested_field_condition_index`, lines 130-167): the
sub-predicates are tried in the order match, range, geo-radius,
geo-bounding-box, and the first one yielding a checker wins. -/
def nested_field_condition_index (index : FieldIndex)
    (field_condition : FieldCondition) : Option NestedConditionCheckerFn :=
  match field_condition.rmatch.bind (fun cond => get_nested_match_checkers index cond) with
  | some checker => some checker
  | none =>
    match field_condition.range.bind (fun cond => get_nested_range_checkers index cond) with
    | some checker => some checker
    | none =>
      match field_condition.geo_radius.bind
          (fun cond => get_nested_geo_radius_checkers index cond) with
      | some checker => some checker
      | none =>
        field_condition.geo_bounding_box.bind
          (fun cond => get_nested_geo_bounding_box_checkers index cond)

/-- Index registry: full field path to the ordered list of available
indexes for that path (`IndexesMap` of the optimizer). -/
abbrev IndexesMap := List (List PathSeg × List FieldIndex)

/-- Lookup of the indexes registered for a full path. -/
def IndexesMap.getIndexes (m : IndexesMap) (p : List PathSeg) : Option (List FieldIndex) :=
  m.lookup p

/-- Dispatch of one nested condition to an index-accelerated checker when
one exists for the full path, else to the fallback document checkers
(nested_filter.rs `nested_condition_converter`, lines 81-128). The
`unreachable!()` branches for `HasId`, `Nested` and `Filter` are modelled
as `none`; the fallback results (element positions) are stringified into
nested paths as `from_indexes` does. -/
def nested_condition_converter (field_indexes : IndexesMap)
    (payloads : Nat → Payload) (nested_path : JsonPathPayload) :
    Condition → Option NestedConditionCheckerFn
  | .Field field_condition =>
    let full_path := nested_path.add_segment field_condition.key
    some (match (field_indexes.getIndexes full_path.path).bind (fun indexes =>
        (indexes.filterMap (fun index =>
          nested_field_condition_index index field_condition)).head?) with
      | some checker => checker
      | none => fun point_id =>
        .from_matches ((nested_check_field_condition field_condition
          (payloads point_id) nested_path).map toString))
  | .IsEmpty is_empty =>
    some (fun point_id =>
      .from_matches ((check_nested_is_empty_condition nested_path is_empty
        (payloads point_id)).map toString))
  | .IsNull is_null =>
    some (fun point_id =>
      .from_matches ((check_nested_is_null_condition nested_path is_null
        (payloads point_id)).map toString))
  | .HasId _ => none
  | .Nested _ _ => none
  | .Filter _ => none

/-- Checker that never matches, used as an `Option.getD` default when a
dispatcher result is known to be `some`. -/
def nullChecker : NestedConditionCheckerFn := fun _ => .NoMatch

/-- Field condition whose only configured sub-predicate is a keyword
match-value. -/
def matchOnlyCondition (fkey k : String) : FieldCondition :=
  { key := fkey
  , rmatch := some (Match.Value ⟨ValueVariants.Keyword k⟩)
  , range := none
  , geo_radius := none
  , geo_bounding_box := none
  , values_count := none }

/-- Concrete checker matching element positions 0 and 1 for every point. -/
def checkerA : NestedConditionCheckerFn := fun _ => .Matches [("0"), ("1")]

/-- Concrete checker matching element position 1 for every point. -/
def checkerB : NestedConditionCheckerFn := fun _ => .Matches [("1")]

/-- Concrete per-condition checker matching position 0 for every condition. -/
def constChecker : Condition → List Nat := fun _ => [0]

/-- Concrete one-element condition list. -/
def oneCondList : List Condition := [Condition.IsNull ⟨⟨("x")⟩⟩]

/-- Concrete checker whose match list repeats one path twice. -/
def dupPathChecker : NestedConditionCheckerFn := fun _ => .Matches [("0"), ("0")]

/-- Concrete checker reporting no match for every point. -/
def noMatchChecker : NestedConditionCheckerFn := fun _ => .NoMatch

/-- Concrete keyword values: every point has the single stored value "b". -/
def kwListB : List String := [("b")]

/-- Concrete keyword index value getter over `kwListB`. -/
def kwValuesB : Nat → Option (List String) := fun _ => some kwListB

/-- Concrete keyword index over `kwValuesB`. -/
def kwIndexB : FieldIndex := .KeywordIndex kwValuesB

/-- Concrete payload: the nested array `p` holds one object with string
field `f` equal to "b" — the same data `kwIndexB` stores. -/
def payloadB : Payload :=
  ⟨[(("p"), Value.arr [Value.obj [(("f"), Value.str ("b"))]])]⟩

/-- Concrete nested path descending into the array `p`. -/
def nestedPathP : JsonPathPayload := ⟨[PathSeg.objKey ("p"), PathSeg.allElems]⟩

/-- Concrete field condition carrying two sub-predicates: a keyword match
(which the keyword index accepts) and a values-count bound (which no index
accelerates). -/
def multiPredCondition : FieldCondition :=
  { key := ("f")
  , rmatch := some (Match.Value ⟨ValueVariants.Keyword ("zzz")⟩)
  , range := none
  , geo_radius := none
  , geo_bounding_box := none
  , values_count := some { lt := none, gt := none, gte := some 1, lte := none } }

/-- Concrete field condition carrying only a values-count sub-predicate. -/
def valuesCountOnlyCondition : FieldCondition :=
  { key := ("f")
  , rmatch := none
  , range := none
  , geo_radius := none
  , geo_bounding_box := none
  , values_count := some { lt := none, gt := none, gte := some 1, lte := none } }

/-- Concrete keyword values: every point has the single stored value "a". -/
def kwValuesA : Nat → Option (List String) := fun _ => some [("a")]

/-- Concrete payload: the nested array `p` holds one object with string
field `f` equal to "a" — the same data `kwValuesA` stores. -/
def payloadA : Payload :=
  ⟨[(("p"), Value.arr [Value.obj [(("f"), Value.str ("a"))]])]⟩

/-- Concrete empty nested path. -/
def emptyPath : JsonPathPayload := ⟨[]⟩

/-- Concrete empty payload document. -/
def emptyPayload : Payload := ⟨[]⟩

/-- Concrete payload provider returning the empty document for every point. -/
def payloadsEmpty : Nat → Payload := fun _ => emptyPayload

/-- Concrete well-formed nested filter: one IsNull must-condition. -/
def okFilter : Filter := Filter.mk none (some [Condition.IsNull ⟨⟨("x")⟩⟩]) none

/-- Concrete structurally invalid nested filter: a HasId must-condition. -/
def violFilter : Filter := Filter.mk none (some [Condition.HasId [0]]) none

/-- Membership in an index-threaded positions list: exactly the offsets of
the satisfying elements. -/
theorem positionsFrom_mem {α : Type _} (f : α → Bool) (d : α) :
    ∀ (l : List α) (n i : Nat),
      i ∈ positionsFrom f n l ↔ ∃ j, j < l.length ∧ i = n + j ∧ f (l.getD j d) = true
  | [], n, i => by simp [positionsFrom]
  | x :: rest, n, i => by
    have ih := positionsFrom_mem f d rest (n + 1) i
    by_cases hx : f x = true
    · rw [positionsFrom, if_pos hx]
      constructor
      · intro hmem
        rcases List.mem_cons.mp hmem with rfl | hmem'
        · exact ⟨0, by simp, by omega, by simpa using hx⟩
        · obtain ⟨j, hj, hij, hf⟩ := ih.mp hmem'
          exact ⟨j + 1, by simpa using hj, by omega, by simpa using hf⟩
      · rintro ⟨j, hj, hij, hf⟩
        cases j with
        | zero => exact List.mem_cons.mpr (Or.inl (by omega))
        | succ j' =>
          refine List.mem_cons.mpr (Or.inr (ih.mpr ⟨j', ?_, by omega, ?_⟩))
          · simpa using hj
          · simpa using hf
    · rw [positionsFrom, if_neg hx]
      constructor
      · intro hmem
        obtain ⟨j, hj, hij, hf⟩ := ih.mp hmem
        exact ⟨j + 1, by simpa using hj, by omega, by simpa using hf⟩
      · rintro ⟨j, hj, hij, hf⟩
        cases j with
        | zero => exact absurd (by simpa using hf) hx
        | succ j' => exact ih.mpr ⟨j', by simpa using hj, by omega, by simpa using hf⟩

/-- Membership in a positions list: the 0-based offsets of the satisfying
elements. -/
theorem positions_mem {α : Type _} (f : α → Bool) (d : α) (l : List α) (i : Nat) :
    i ∈ positions f l ↔ i < l.length ∧ f (l.getD i d) = true := by
  rw [positions, positionsFrom_mem f d l 0 i]
  constructor
  · rintro ⟨j, hj, hij, hf⟩
    have hji : i = j := by omega
    subst hji
    exact ⟨hj, hf⟩
  · rintro ⟨hi, hf⟩
    exact ⟨i, hi, by omega, hf⟩

/-- Positions over a mapped list are positions of the composed predicate. -/
theorem positionsFrom_map {α β : Type _} (f : β → Bool) (g : α → β) :
    ∀ (l : List α) (n : Nat),
      positionsFrom f n (l.map g) = positionsFrom (fun x => f (g x)) n l
  | [], _ => rfl
  | x :: rest, n => by
    simp only [List.map_cons, positionsFrom]
    rw [positionsFrom_map f g rest (n + 1)]

/-- Positions over a mapped list, at offset zero. -/
theorem positions_map {α β : Type _} (f : β → Bool) (g : α → β) (l : List α) :
    positions f (l.map g) = positions (fun x => f (g x)) l :=
  positionsFrom_map f g l 0

/-- Matched paths carried by a `from_matches` result: the input list. -/
theorem matchedPaths_from_matches (found : List String) :
    (NestedConditionCheckerResult.from_matches found).matchedPaths = found := by
  cases found <;>
    simp [NestedConditionCheckerResult.from_matches,
      NestedConditionCheckerResult.matchedPaths]

/-- Matched paths carried by a `from_indexes` result: the stringified
positions. -/
theorem matchedPaths_from_indexes (indexes : List Nat) :
    (NestedConditionCheckerResult.from_indexes indexes).matchedPaths
      = indexes.map toString := by
  cases indexes <;>
    simp [NestedConditionCheckerResult.from_indexes,
      NestedConditionCheckerResult.matchedPaths]

/-- Count of satisfying elements in a flattened list. -/
theorem countP_flatten {α : Type _} (p : α → Bool) :
    ∀ (L : List (List α)), L.flatten.countP p = (L.map (fun l => l.countP p)).sum
  | [] => by simp
  | l :: L => by
    simp [List.flatten_cons, List.countP_append, countP_flatten p L]

/-- A duplicate-free list holds any element at most once. -/
theorem nodup_countP_le_one {α : Type _} [DecidableEq α] :
    ∀ {l : List α}, l.Nodup → ∀ a : α, l.countP (fun x => decide (x = a)) ≤ 1
  | [], _, a => by simp
  | x :: rest, h, a => by
    obtain ⟨hx, hrest⟩ := List.nodup_cons.mp h
    rw [List.countP_cons]
    by_cases hxa : x = a
    · subst hxa
      have hz : rest.countP (fun y => decide (y = x)) = 0 :=
        List.countP_eq_zero.mpr (fun b hb => by
          simp only [decide_eq_true_eq]
          intro hbx
          exact hx (hbx ▸ hb))
      simp [hz]
    · have ih := nodup_countP_le_one hrest a
      simp only [decide_eq_true_eq]
      rw [if_neg hxa]
      omega

/-- A member is counted at least once. -/
theorem countP_pos_of_mem {α : Type _} [DecidableEq α] {l : List α} {a : α}
    (h : a ∈ l) : 0 < l.countP (fun x => decide (x = a)) :=
  List.countP_pos_iff.mpr ⟨a, h, by simp⟩

/-- A positively counted element is a member. -/
theorem mem_of_countP_pos {α : Type _} [DecidableEq α] {l : List α} {a : α}
    (h : 0 < l.countP (fun x => decide (x = a))) : a ∈ l := by
  obtain ⟨b, hb, hba⟩ := List.countP_pos_iff.mp h
  simp only [decide_eq_true_eq] at hba
  exact hba ▸ hb

/-- A sum of naturals each at most one is at most the number of summands. -/
theorem sum_le_length : ∀ {ns : List Nat}, (∀ x ∈ ns, x ≤ 1) → ns.sum ≤ ns.length
  | [], _ => by simp
  | x :: rest, h => by
    have hx := h x (List.mem_cons_self x rest)
    have hr := sum_le_length (fun y hy => h y (List.mem_cons_of_mem x hy))
    simp only [List.sum_cons, List.length_cons]
    omega

/-- A sum of naturals each at most one reaches the number of summands iff
every summand is one. -/
theorem sum_eq_length_iff_all_one : ∀ {ns : List Nat}, (∀ x ∈ ns, x ≤ 1) →
    (ns.sum = ns.length ↔ ∀ x ∈ ns, x = 1)
  | [], _ => by simp
  | x :: rest, h => by
    have hx := h x (List.mem_cons_self x rest)
    have hr := sum_le_length (fun y hy => h y (List.mem_cons_of_mem x hy))
    have ih := sum_eq_length_iff_all_one (fun y hy => h y (List.mem_cons_of_mem x hy))
    simp only [List.sum_cons, List.length_cons, List.mem_cons]
    constructor
    · intro hsum
      have hx1 : x = 1 := by omega
      have hsum' : rest.sum = rest.length := by omega
      intro y hy
      rcases hy with rfl | hy
      · exact hx1
      · exact ih.mp hsum' y hy
    · intro hall
      have hx1 : x = 1 := hall x (Or.inl rfl)
      have hrs : rest.sum = rest.length := ih.mpr (fun y hy => hall y (Or.inr hy))
      omega

/-- Core of the positional AND: over duplicate-free per-condition position
lists, some element of the flat list is counted `L.length` times iff some
element lies in every list. -/
theorem flat_tally_iff_inter {α : Type _} [DecidableEq α] (L : List (List α))
    (hne : L ≠ []) (hnd : ∀ l ∈ L, l.Nodup) :
    ((L.flatten.any fun m => L.flatten.countP (fun x => decide (x = m)) == L.length) = true
      ↔ ∃ m, ∀ l ∈ L, m ∈ l) := by
  rw [List.any_eq_true]
  constructor
  · rintro ⟨m, hm, hc⟩
    rw [beq_iff_eq, countP_flatten] at hc
    have hle : ∀ x ∈ L.map (fun l => l.countP (fun x => decide (x = m))), x ≤ 1 := by
      intro x hx
      obtain ⟨l', hl', rfl⟩ := List.mem_map.mp hx
      exact nodup_countP_le_one (hnd l' hl') m
    have hsum : (L.map (fun l => l.countP (fun x => decide (x = m)))).sum
        = (L.map (fun l => l.countP (fun x => decide (x = m)))).length := by
      rw [List.length_map]
      exact hc
    have hall := (sum_eq_length_iff_all_one hle).mp hsum
    refine ⟨m, fun l hl => ?_⟩
    have h1 : l.countP (fun x => decide (x = m)) = 1 :=
      hall _ (List.mem_map.mpr ⟨l, hl, rfl⟩)
    exact mem_of_countP_pos (by omega)
  · rintro ⟨m, hm⟩
    obtain ⟨l₀, hl₀⟩ : ∃ l, l ∈ L := by
      cases L with
      | nil => exact absurd rfl hne
      | cons a t => exact ⟨a, List.mem_cons_self a t⟩
    refine ⟨m, List.mem_flatten.mpr ⟨l₀, hl₀, hm l₀ hl₀⟩, ?_⟩
    rw [beq_iff_eq, countP_flatten]
    have hle : ∀ x ∈ L.map (fun l => l.countP (fun x => decide (x = m))), x ≤ 1 := by
      intro x hx
      obtain ⟨l', hl', rfl⟩ := List.mem_map.mp hx
      exact nodup_countP_le_one (hnd l' hl') m
    have hall : ∀ x ∈ L.map (fun l => l.countP (fun x => decide (x = m))), x = 1 := by
      intro x hx
      obtain ⟨l', hl', rfl⟩ := List.mem_map.mp hx
      have h1 := nodup_countP_le_one (hnd l' hl') m
      have h2 := countP_pos_of_mem (hm l' hl')
      omega
    have hs := (sum_eq_length_iff_all_one hle).mpr hall
    rw [hs, List.length_map]

/-- Sub-predicate disjunction of a field condition, in propositional form. -/
theorem subPredicatesCheck_eq_true (fc : FieldCondition) (p : Value) :
    subPredicatesCheck fc p = true ↔
      (mapOrFalse fc.rmatch (fun c => c.check p) = true
       ∨ mapOrFalse fc.range (fun c => c.check p) = true
       ∨ mapOrFalse fc.geo_radius (fun c => c.check p) = true
       ∨ mapOrFalse fc.geo_bounding_box (fun c => c.check p) = true
       ∨ mapOrFalse fc.values_count (fun c => c.check p) = true) := by
  simp [subPredicatesCheck, Bool.or_eq_true, or_assoc]

/-- The IsEmpty match arm, in propositional form. -/
theorem isNullOrEmptyArray_eq_true (p : Value) :
    isNullOrEmptyArray p = true ↔ (p = Value.null ∨ p = Value.arr []) := by
  cases p with
  | arr vs => cases vs <;> simp [isNullOrEmptyArray]
  | _ => simp [isNullOrEmptyArray]

/-- The IsNull `Multiple` match arm, in propositional form. -/
theorem isNullOrContainsNull_eq_true (p : Value) :
    isNullOrContainsNull p = true ↔
      (p = Value.null ∨ ∃ vec, p = Value.arr vec ∧ ∃ val ∈ vec, val.is_null = true) := by
  cases p <;> simp [isNullOrContainsNull, List.any_eq_true]

/-- Sequencing succeeds when every per-condition checker does. -/
theorem collectResults_isSome (checker : Condition → Option (List Nat)) :
    ∀ (conds : List Condition), (∀ c ∈ conds, (checker c).isSome = true) →
      (collectResults checker conds).isSome = true
  | [], _ => rfl
  | c :: rest, h => by
    have hc := h c (List.mem_cons_self c rest)
    have hr := collectResults_isSome checker rest (fun d hd => h d (List.mem_cons_of_mem c hd))
    rw [collectResults]
    cases hcc : checker c with
    | none => rw [hcc] at hc; simp at hc
    | some r =>
      cases hcr : collectResults checker rest with
      | none => rw [hcr] at hr; simp at hr
      | some rs => rfl

/-- Sequencing aborts when any listed condition's checker aborts. -/
theorem collectResults_none (checker : Condition → Option (List Nat)) :
    ∀ (conds : List Condition) (c : Condition), c ∈ conds → checker c = none →
      collectResults checker conds = none
  | [], c, hc, _ => absurd hc (List.not_mem_nil c)
  | a :: rest, c, hc, hnone => by
    rw [collectResults]
    rcases List.mem_cons.mp hc with rfl | hc'
    · rw [hnone]
    · rw [collectResults_none checker rest c hc' hnone]
      cases checker a <;> rfl

/-- Violating conditions abort the fallback per-condition checker. -/
theorem nested_checker_of_violating (payload : Payload) (nested_path : JsonPathPayload)
    (c : Condition) (h : c.isStructuralViolation = true) :
    nested_checker_of payload nested_path c = none := by
  cases c with
  | Field fc => simp [Condition.isStructuralViolation] at h
  | IsEmpty x => simp [Condition.isStructuralViolation] at h
  | IsNull x => simp [Condition.isStructuralViolation] at h
  | HasId x => rfl
  | Nested a b => rfl
  | Filter f => rfl

/-- Well-formed conditions never abort the fallback per-condition checker. -/
theorem nested_checker_of_ok (payload : Payload) (nested_path : JsonPathPayload)
    (c : Condition) (h : c.isStructuralViolation = false) :
    (nested_checker_of payload nested_path c).isSome = true := by
  cases c with
  | Field fc => rfl
  | IsEmpty x => rfl
  | IsNull x => rfl
  | HasId x => simp [Condition.isStructuralViolation] at h
  | Nested a b => simp [Condition.isStructuralViolation] at h
  | Filter f => simp [Condition.isStructuralViolation] at h

/-- C1: for a non-empty list of nested condition checkers whose results are
duplicate-free position sets at the given point, the merged checker returns
true iff some position lies in every checker's result (the intersection of
the per-condition sets is non-empty), and returns false whenever any one
checker returns an empty result; the same holds for the fallback engine
`check_all_nested_conditions` over a non-empty condition list with
duplicate-free per-condition results. -/
theorem merged_nested_and_semantics
    (nested_checkers : List NestedConditionCheckerFn) (point_id : Nat)
    (checker : Condition → List Nat) (conditions : List Condition)
    (hne : nested_checkers ≠ [])
    (hnd : ∀ c ∈ nested_checkers, ((c point_id).matchedPaths).Nodup)
    (hne2 : conditions ≠ [])
    (hnd2 : ∀ c ∈ conditions, (checker c).Nodup) :
    (merge_nested_condition_checkers nested_checkers point_id = true ↔
       ∃ path : NestedPath, ∀ c ∈ nested_checkers, path ∈ (c point_id).matchedPaths)
  ∧ ((∃ c ∈ nested_checkers, (c point_id).matchedPaths = []) →
       merge_nested_condition_checkers nested_checkers point_id = false)
  ∧ (check_all_nested_conditions checker (some conditions) = true ↔
       ∃ i : Nat, ∀ c ∈ conditions, i ∈ checker c)
  ∧ ((∃ c ∈ conditions, checker c = []) →
       check_all_nested_conditions checker (some conditions) = false) := by
  have hmain : merge_nested_condition_checkers nested_checkers point_id = true ↔
      ∃ path : NestedPath, ∀ c ∈ nested_checkers, path ∈ (c point_id).matchedPaths := by
    have key := flat_tally_iff_inter
      (nested_checkers.map fun c => (c point_id).matchedPaths)
      (by
        intro hmap
        exact hne (List.map_eq_nil_iff.mp hmap))
      (by
        intro l hl
        obtain ⟨c, hc, rfl⟩ := List.mem_map.mp hl
        exact hnd c hc)
    simp only [List.forall_mem_map] at key
    rw [List.length_map] at key
    simpa only [merge_nested_condition_checkers] using key
  have hmain2 : check_all_nested_conditions checker (some conditions) = true ↔
      ∃ i : Nat, ∀ c ∈ conditions, i ∈ checker c := by
    have key := flat_tally_iff_inter (conditions.map checker)
      (by
        intro hmap
        exact hne2 (List.map_eq_nil_iff.mp hmap))
      (by
        intro l hl
        obtain ⟨c, hc, rfl⟩ := List.mem_map.mp hl
        exact hnd2 c hc)
    simp only [List.forall_mem_map] at key
    rw [List.length_map] at key
    simpa only [check_all_nested_conditions] using key
  refine ⟨hmain, ?_, hmain2, ?_⟩
  · rintro ⟨c₀, hc₀, hempty⟩
    rw [Bool.eq_false_iff]
    intro htrue
    obtain ⟨path, hpath⟩ := hmain.mp htrue
    have hmem := hpath c₀ hc₀
    rw [hempty] at hmem
    exact absurd hmem (List.not_mem_nil path)
  · rintro ⟨c₀, hc₀, hempty⟩
    rw [Bool.eq_false_iff]
    intro htrue
    obtain ⟨i, hpath⟩ := hmain2.mp htrue
    have hmem := hpath c₀ hc₀
    rw [hempty] at hmem
    exact absurd hmem (List.not_mem_nil i)

/-- C1 witness: the merged AND semantics at two concrete checkers matching
positions 0,1 and 1, and the fallback engine at one concrete condition. -/
theorem merged_nested_and_semantics_witness :
    ((merge_nested_condition_checkers [checkerA, checkerB] 0 = true ↔
        ∃ path : NestedPath, ∀ c ∈ [checkerA, checkerB], path ∈ (c 0).matchedPaths)
     ∧ ((∃ c ∈ [checkerA, checkerB], (c 0).matchedPaths = []) →
          merge_nested_condition_checkers [checkerA, checkerB] 0 = false)
     ∧ (check_all_nested_conditions constChecker (some oneCondList) = true ↔
          ∃ i : Nat, ∀ c ∈ oneCondList, i ∈ constChecker c)
     ∧ ((∃ c ∈ oneCondList, constChecker c = []) →
          check_all_nested_conditions constChecker (some oneCondList) = false)) :=
  merged_nested_and_semantics [checkerA, checkerB] 0 constChecker oneCondList
    (by simp)
    (by
      intro c hc
      rcases List.mem_cons.mp hc with rfl | hc'
      · decide
      · rcases List.mem_cons.mp hc' with rfl | hc''
        · decide
        · exact absurd hc'' (List.not_mem_nil c))
    (by exact List.cons_ne_nil _ _)
    (by
      intro c _
      show ([0] : List Nat).Nodup
      decide)

/-- C10: the merge engine tallies occurrences of paths, not distinct
contributing checkers — with two checkers where one returns the same path
twice and the other returns `NoMatch`, the merged checker returns true, so
duplicate-free per-checker results are a necessary precondition for the AND
semantics. -/
theorem duplicate_tally_defeats_and :
    merge_nested_condition_checkers [dupPathChecker, noMatchChecker] 0 = true
  ∧ (noMatchChecker 0).matchedPaths = []
  ∧ ¬ ((dupPathChecker 0).matchedPaths).Nodup
  ∧ [dupPathChecker, noMatchChecker].length = 2 :=
  ⟨rfl, rfl, by decide, rfl⟩

/-- C3 counterexample: a nested filter whose `must` list is present but
empty evaluates to false, not true. -/
theorem empty_must_counterexample :
    check_nested_filter emptyPath (Filter.mk none (some []) none) emptyPayload
      = some false := rfl

/-- C3 (amended): an absent `must` list evaluates to true; a present but
empty `must` list evaluates to false, and the merge engine over an empty
checker list also returns false. -/
theorem empty_must_semantics :
    (∀ checker : Condition → List Nat, check_all_nested_conditions checker none = true)
  ∧ (∀ checker : Condition → List Nat,
       check_all_nested_conditions checker (some []) = false)
  ∧ (∀ (nested_path : JsonPathPayload) (payload : Payload),
       check_nested_filter nested_path (Filter.mk none none none) payload = some true)
  ∧ (∀ (nested_path : JsonPathPayload) (payload : Payload),
       check_nested_filter nested_path (Filter.mk none (some []) none) payload
         = some false)
  ∧ (∀ point_id : Nat, merge_nested_condition_checkers [] point_id = false) :=
  ⟨fun _ => rfl, fun _ => rfl, fun _ _ => rfl, fun _ _ => rfl, fun _ => rfl⟩

/-- C4: the fallback field-condition checker includes an element position
iff at least one of the configured sub-predicates (match, range, geo-radius,
geo-bounding-box, values-count) holds on that element's value — an OR
across sub-predicates. -/
theorem field_condition_or_semantics (field_condition : FieldCondition)
    (payload : Payload) (nested_path : JsonPathPayload) (i : Nat) :
    i ∈ nested_check_field_condition field_condition payload nested_path ↔
      (i < ((payload.get_value
              (nested_path.add_segment field_condition.key).path).values).length
        ∧ (mapOrFalse field_condition.rmatch (fun c => c.check
              (((payload.get_value
                (nested_path.add_segment field_condition.key).path).values).getD i
                Value.null)) = true
          ∨ mapOrFalse field_condition.range (fun c => c.check
              (((payload.get_value
                (nested_path.add_segment field_condition.key).path).values).getD i
                Value.null)) = true
          ∨ mapOrFalse field_condition.geo_radius (fun c => c.check
              (((payload.get_value
                (nested_path.add_segment field_condition.key).path).values).getD i
                Value.null)) = true
          ∨ mapOrFalse field_condition.geo_bounding_box (fun c => c.check
              (((payload.get_value
                (nested_path.add_segment field_condition.key).path).values).getD i
                Value.null)) = true
          ∨ mapOrFalse field_condition.values_count (fun c => c.check
              (((payload.get_value
                (nested_path.add_segment field_condition.key).path).values).getD i
                Value.null)) = true)) := by
  simp only [nested_check_field_condition]
  rw [positions_mem (subPredicatesCheck field_condition) Value.null]
  constructor
  · rintro ⟨hlen, hsat⟩
    exact ⟨hlen, (subPredicatesCheck_eq_true _ _).mp hsat⟩
  · rintro ⟨hlen, hsat⟩
    exact ⟨hlen, (subPredicatesCheck_eq_true _ _).mpr hsat⟩

/-- C7: the IsEmpty fallback checker includes an element position iff the
value at the resolved path for that element is null or an empty array (so a
non-empty array, even of all-null elements, does not match). -/
theorem is_empty_semantics (nested_path : JsonPathPayload)
    (is_empty : IsEmptyCondition) (payload : Payload) (i : Nat) :
    i ∈ check_nested_is_empty_condition nested_path is_empty payload ↔
      (i < ((payload.get_value
              (nested_path.add_segment is_empty.is_empty.key).path).values).length
        ∧ (((payload.get_value
              (nested_path.add_segment is_empty.is_empty.key).path).values).getD i
              Value.null = Value.null
          ∨ ((payload.get_value
              (nested_path.add_segment is_empty.is_empty.key).path).values).getD i
              Value.null = Value.arr [])) := by
  simp only [check_nested_is_empty_condition]
  rw [positions_mem isNullOrEmptyArray Value.null]
  rw [isNullOrEmptyArray_eq_true]

/-- C6: the IsNull fallback checker reports position 0 when the resolution
is `Single none` (field absent counts as null) and exactly when the single
value is literally null for `Single (some v)`; for a `Multiple` resolution
it reports exactly the positions whose value is null or an array containing
at least one null — so a missing field behaves like an explicit null in the
`Single` case. -/
theorem is_null_semantics (nested_path : JsonPathPayload)
    (is_null : IsNullCondition) (payload : Payload) (i : Nat) :
    i ∈ check_nested_is_null_condition nested_path is_null payload ↔
      (match payload.get_value (nested_path.add_segment is_null.is_null.key).path with
       | .Single none => i = 0
       | .Single (some v) => i = 0 ∧ v.is_null = true
       | .Multiple vs =>
         i < vs.length
           ∧ (vs.getD i Value.null = Value.null
              ∨ ∃ vec, vs.getD i Value.null = Value.arr vec
                  ∧ ∃ val ∈ vec, val.is_null = true)) := by
  cases hval : payload.get_value (nested_path.add_segment is_null.is_null.key).path with
  | Single v =>
    cases v with
    | none => simp [check_nested_is_null_condition, hval]
    | some w =>
      by_cases hw : w.is_null = true
      · simp [check_nested_is_null_condition, hval, hw]
      · rw [Bool.not_eq_true] at hw
        simp [check_nested_is_null_condition, hval, hw]
  | Multiple vs =>
    simp only [check_nested_is_null_condition, hval]
    rw [positions_mem isNullOrContainsNull Value.null]
    rw [isNullOrContainsNull_eq_true]

/-- C9: in nested scope the index-accelerated full-text checker exists for
every full-text index and returns `NoMatch` unconditionally — both when the
index has no document for the point and when the compiled query matches —
resolving the position-attribution question with the no-match policy, never
the position-0 policy. -/
theorem fulltext_nested_nomatch (full_text_index : FullTextIndexT)
    (text : String) (point_id : Nat) :
    (get_nested_match_checkers (.FullTextIndex full_text_index)
        (.Text ⟨text⟩)).isSome = true
  ∧ ((get_nested_match_checkers (.FullTextIndex full_text_index)
        (.Text ⟨text⟩)).getD nullChecker) point_id = .NoMatch := by
  constructor
  · rfl
  · cases h : full_text_index.get_doc point_id <;>
      simp [get_nested_match_checkers, h]

/-- C2 counterexample: a keyword index holding exactly the document's
resolved string values, and a field condition carrying a keyword match plus
a values-count sub-predicate; the dispatcher picks the index checker, whose
position set (empty) differs from the fallback checker's (position 0). -/
theorem index_fallback_diverge :
    ((payloadB.get_value (nestedPathP.add_segment ("f")).path).values
        = kwListB.map Value.str)
  ∧ kwValuesB 0 = some kwListB
  ∧ (nested_field_condition_index kwIndexB multiPredCondition).isSome = true
  ∧ ((nested_field_condition_index kwIndexB multiPredCondition).getD
        nullChecker 0).matchedPaths = []
  ∧ nested_check_field_condition multiPredCondition payloadB nestedPathP = [0] :=
  ⟨rfl, rfl, rfl, rfl, rfl⟩

/-- C2 (amended): the index-accelerated and fallback checkers return
identical position sets when the condition's sole configured sub-predicate
is the one the index accelerates — shown for a keyword match-value against
a keyword index whose stored values equal the document's resolved string
values at the full path; with further sub-predicates configured (or a
full-text match) the two checkers can differ. -/
theorem index_fallback_equiv_keyword (fkey k : String)
    (nested_path : JsonPathPayload) (payload : Payload)
    (get_values : Nat → Option (List String)) (point_id : Nat)
    (strs : List String)
    (hidx : get_values point_id = some strs)
    (hdata : (payload.get_value (nested_path.add_segment fkey).path).values
       = strs.map Value.str) :
    (nested_field_condition_index (.KeywordIndex get_values)
        (matchOnlyCondition fkey k)).isSome = true
  ∧ ((nested_field_condition_index (.KeywordIndex get_values)
        (matchOnlyCondition fkey k)).getD nullChecker point_id).matchedPaths
      = (nested_check_field_condition (matchOnlyCondition fkey k) payload
          nested_path).map toString := by
  have hchk : nested_field_condition_index (.KeywordIndex get_values)
      (matchOnlyCondition fkey k)
      = some (fun pid =>
          match get_values pid with
          | none => .NoMatch
          | some values =>
            .from_indexes (positions (fun k' => k' == k) values)) := rfl
  refine ⟨by rw [hchk]; rfl, ?_⟩
  rw [hchk]
  simp only [Option.getD_some, hidx]
  rw [matchedPaths_from_indexes]
  simp only [nested_check_field_condition]
  have hkey : (matchOnlyCondition fkey k).key = fkey := rfl
  rw [hkey, hdata, positions_map]
  have hfun : (fun x => subPredicatesCheck (matchOnlyCondition fkey k) (Value.str x))
      = (fun k' => k' == k) := by
    funext s
    simp [subPredicatesCheck, matchOnlyCondition, mapOrFalse, Match.check]
  rw [hfun]

/-- C2 witness: the single-keyword-match equivalence at a concrete keyword
index and payload over the same data. -/
theorem index_fallback_equiv_keyword_witness :
    kwValuesA 0 = some [("a")]
  ∧ ((payloadA.get_value (nestedPathP.add_segment ("f")).path).values
       = List.map Value.str [("a")])
  ∧ (nested_field_condition_index (.KeywordIndex kwValuesA)
       (matchOnlyCondition ("f") ("a"))).isSome = true
  ∧ ((nested_field_condition_index (.KeywordIndex kwValuesA)
       (matchOnlyCondition ("f") ("a"))).getD nullChecker 0).matchedPaths
      = (nested_check_field_condition (matchOnlyCondition ("f") ("a")) payloadA
          nestedPathP).map toString :=
  ⟨rfl, rfl,
    (index_fallback_equiv_keyword ("f") ("a") nestedPathP payloadA kwValuesA 0
      [("a")] rfl rfl).1,
    (index_fallback_equiv_keyword ("f") ("a") nestedPathP payloadA kwValuesA 0
      [("a")] rfl rfl).2⟩

/-- C5 counterexample: for a field condition with a keyword match and a
values-count sub-predicate against a keyword index, the dispatcher does not
fall back (it returns an index checker), yet that checker's result differs
from the fallback's full OR — partial index acceleration occurs although
the index alone cannot answer the full OR. -/
theorem dispatcher_accelerates_split_or :
    (nested_field_condition_index kwIndexB multiPredCondition).isSome = true
  ∧ multiPredCondition.values_count.isSome = true
  ∧ ((nested_field_condition_index kwIndexB multiPredCondition).getD
        nullChecker 0).matchedPaths
      ≠ (nested_check_field_condition multiPredCondition payloadB
          nestedPathP).map toString :=
  ⟨rfl, rfl, by decide⟩

/-- C5 (amended): the dispatcher accelerates the first index-compatible
sub-predicate in the order match, range, geo-radius, geo-bounding-box even
when other sub-predicates are configured (so partial acceleration can
occur); it falls back wholesale to the document checker when none of those
four slots is configured — in particular for a values-count-only
condition. -/
theorem dispatcher_wholesale_fallback (index : FieldIndex)
    (field_condition : FieldCondition)
    (h1 : field_condition.rmatch = none) (h2 : field_condition.range = none)
    (h3 : field_condition.geo_radius = none)
    (h4 : field_condition.geo_bounding_box = none) :
    nested_field_condition_index index field_condition = none := by
  simp [nested_field_condition_index, h1, h2, h3, h4]

/-- C5 witness: the wholesale fallback at a concrete values-count-only
condition and keyword index. -/
theorem dispatcher_wholesale_fallback_witness :
    nested_field_condition_index kwIndexB valuesCountOnlyCondition = none :=
  dispatcher_wholesale_fallback kwIndexB valuesCountOnlyCondition rfl rfl rfl rfl

/-- C8: structurally invalid conditions (HasId, Nested, raw Filter) inside
nested scope make the optimizer's converter fail at construction, and make
the fallback evaluator abort (modelled panic) rather than return a boolean;
evaluation of a well-formed nested filter (only Field, IsEmpty, IsNull
conditions) never reaches the violation branches. -/
theorem structural_violations_fail_fast :
    (∀ (field_indexes : IndexesMap) (payloads : Nat → Payload)
       (nested_path : JsonPathPayload) (condition : Condition),
       condition.isStructuralViolation = true →
       nested_condition_converter field_indexes payloads nested_path condition = none)
  ∧ (∀ (nested_path : JsonPathPayload) (nested_filter : Filter) (payload : Payload),
       (∀ c ∈ nested_filter.must.getD [], c.isStructuralViolation = false) →
       (check_nested_filter nested_path nested_filter payload).isSome = true)
  ∧ (∀ (nested_path : JsonPathPayload) (nested_filter : Filter) (payload : Payload)
       (c : Condition), c ∈ nested_filter.must.getD [] →
       c.isStructuralViolation = true →
       check_nested_filter nested_path nested_filter payload = none) := by
  refine ⟨?_, ?_, ?_⟩
  · intro fi pl np condition h
    cases condition with
    | Field fc => simp [Condition.isStructuralViolation] at h
    | IsEmpty x => simp [Condition.isStructuralViolation] at h
    | IsNull x => simp [Condition.isStructuralViolation] at h
    | HasId x => rfl
    | Nested a b => rfl
    | Filter f => rfl
  · intro np f payload h
    obtain ⟨s, m, mn⟩ := f
    cases m with
    | none => rfl
    | some conds =>
      have hs : (collectResults (nested_checker_of payload np) conds).isSome = true := by
        apply collectResults_isSome
        intro c hc
        have hv := h c (by simpa [Filter.must] using hc)
        exact nested_checker_of_ok payload np c hv
      simp only [check_nested_filter, nested_filter_checker,
        check_all_nested_conditions_safe, Filter.must]
      rw [Option.isSome_map']
      exact hs
  · intro np f payload c hc hviol
    obtain ⟨s, m, mn⟩ := f
    cases m with
    | none => simp [Filter.must] at hc
    | some conds =>
      have h0 : nested_checker_of payload np c = none :=
        nested_checker_of_violating payload np c hviol
      have h1 : collectResults (nested_checker_of payload np) conds = none :=
        collectResults_none _ conds c (by simpa [Filter.must] using hc) h0
      simp only [check_nested_filter, nested_filter_checker,
        check_all_nested_conditions_safe, Filter.must]
      rw [h1]
      rfl

/-- C8 witness: the converter rejects a concrete HasId condition at
construction; a concrete well-formed filter evaluates to a boolean; a
concrete filter carrying HasId aborts without returning a boolean. -/
theorem structural_violations_fail_fast_witness :
    nested_condition_converter [] payloadsEmpty emptyPath (Condition.HasId [0]) = none
  ∧ (check_nested_filter emptyPath okFilter emptyPayload).isSome = true
  ∧ check_nested_filter emptyPath violFilter emptyPayload = none :=
  ⟨structural_violations_fail_fast.1 [] payloadsEmpty emptyPath
      (Condition.HasId [0]) rfl,
   structural_violations_fail_fast.2.1 emptyPath okFilter emptyPayload
     (by
       intro c hc
       simp [okFilter, Filter.must] at hc
       subst hc
       rfl),
   structural_violations_fail_fast.2.2 emptyPath violFilter emptyPayload
     (Condition.HasId [0])
     (by simp [violFilter, Filter.must])
     rfl⟩

end Qdrant
